import Mathlib

/-!
Verification of the autoregressive token-generation engine of the backend
(`src/backend/main.py`, streaming generation endpoints).

The embedding below translates, from the Python source:

* `GenerationRequest` (pydantic model, lines 251-258): the request schema with
  its `Field` bounds, reified as the structure `GenerationRequest` together
  with the boolean validator `validateRequest` (pydantic rejects a request
  exactly when one of the declared bounds fails).
* the strategy dispatch inside `stream_generator` (lines 275-304):
  temperature scaling, `torch.argmax` (first maximal index), the top-k
  filtering step (`torch.topk(...)[0][..., -1]` threshold followed by the
  `< threshold` mask), and the top-p / nucleus filtering step
  (descending sort, cumulative softmax, right-shifted removal mask with the
  first sorted position forced to be kept, scattered back to vocabulary
  order).  Masked entries (logits set to `-inf`) are represented by `none`
  in a `List (Option ℚ)`.  The softmax itself is irrational, so the
  cumulative-probability computation takes the normalisation function
  `smax` as an explicit parameter; every theorem below holds for every
  `smax`, hence in particular for the real softmax.
* the generation loop of `stream_generator` (lines 260-325): modelled as the
  fuel-indexed recursion `genLoop` plus the wrapper `stream_generator`; the
  model forward pass is a function from the current token-id sequence to
  either a logit vector or a raised exception (`Except String`), the
  `torch.multinomial` draw is an oracle `sampler`, and the emitted SSE lines
  are the inductive `StreamItem` (token events and the "Model not loaded"
  error line).  The outcome field records whether the generator ran to
  completion or propagated an exception, and `forwardCalls` counts model
  forward passes.
-/

namespace Portfolio

/-- One line emitted by the SSE generator: either a token event
`data: {token, finished}` or the error line yielded when the model is not
loaded (`src/backend/main.py` lines 262-264, 310-315, 325). -/
inductive StreamItem where
  | data (token : String) (finished : Bool)
  | errorMsg (msg : String)
  deriving DecidableEq, Repr

/-- How the generator finished: normal completion, or an exception that
propagated out of the generator body. -/
inductive StreamEnd where
  | normal
  | raised (msg : String)
  deriving DecidableEq, Repr

/-- The tokenizer collaborator: `tokenizer(prompt)` (encode), `tokenizer.decode`,
and `tokenizer.eos_token_id` (which may be `None` for some tokenizers, hence
`Option`). -/
structure Tokenizer where
  encode : String → List Nat
  decode : Nat → String
  eosTokenId : Option Nat

/-- `GenerationRequest` (pydantic model, `src/backend/main.py` lines 251-258).
Field defaults are the source's defaults; `temperature`, `top_p` are floats
modelled as rationals. -/
structure GenerationRequest where
  prompt : String
  model_id : String := "gpt2"
  max_new_tokens : Int := 50
  temperature : ℚ := 7/10
  top_k : Int := 50
  top_p : ℚ := 9/10
  strategy : String := "top_k"
  deriving DecidableEq, Repr

/-- The pydantic validation induced by the `Field` bounds on
`GenerationRequest`: `prompt` has `max_length=10000` (no minimum length),
`max_new_tokens` has `le=2000` (no lower bound), `temperature` has
`ge=0.1, le=2.0`, `top_k` has `ge=0`, `top_p` has `ge=0.0, le=1.0`.
A request is accepted iff every declared bound holds. -/
def validateRequest (r : GenerationRequest) : Bool :=
  decide (r.prompt.length ≤ 10000) && decide (r.max_new_tokens ≤ 2000) &&
  decide ((1 : ℚ)/10 ≤ r.temperature) && decide (r.temperature ≤ 2) &&
  decide (0 ≤ r.top_k) && decide (0 ≤ r.top_p) && decide (r.top_p ≤ 1)

/-- Accumulator loop of `torch.argmax`: scans the tail keeping the best value
seen so far; a later entry replaces the best only when strictly greater, so
the first maximal index wins. `i` is the index of the head of the remaining
list. -/
def argmaxAux (best : ℚ) (bi : Nat) (i : Nat) : List ℚ → Nat
  | [] => bi
  | x :: xs => if best < x then argmaxAux x i (i + 1) xs else argmaxAux best bi (i + 1) xs

/-- `torch.argmax` on a vector: the index of the first maximal entry
(`src/backend/main.py` lines 284-285 and 303-304). -/
def argmaxIdx : List ℚ → Nat
  | [] => 0
  | x :: xs => argmaxAux x 0 1 xs

/-- `torch.topk(logits, k)[0][..., -1]`: the `k`-th largest entry of the
vector, i.e. the last element of the first `k` entries of the descending
sort.  When `k ≤ 0` the selected slice is empty and the `[-1]` index raises
(`none`); likewise when `k` exceeds the length. -/
def kthLargest (logits : List ℚ) (k : Int) : Option ℚ :=
  if k ≤ 0 then none
  else (List.insertionSort (· ≥ ·) logits).get? (k.toNat - 1)

/-- The IndexError message raised by `topk(...)[0][..., -1]` on an empty
selection. -/
def topkIndexErrorMsg : String := "index -1 is out of bounds for dimension 1 with size 0"

/-- The top-k filtering step (`src/backend/main.py` lines 286-289):
`top_k = min(request.top_k, vocab)`, then every logit strictly below the
`top_k`-th largest logit is masked to `-inf` (represented as `none`). -/
def topKFilter (logits : List ℚ) (topK : Int) : Except String (List (Option ℚ)) :=
  let k := min topK (logits.length : Int)
  match kthLargest logits k with
  | none => .error topkIndexErrorMsg
  | some thr => .ok (logits.map fun x => if x < thr then none else some x)

/-- Index comparison by logit value: `i` precedes `j` in the descending sort
when the logit at `i` is at least the logit at `j`. -/
def idxGE (l : List ℚ) (i j : Nat) : Prop := l.getD j 0 ≤ l.getD i 0

instance idxGE.instDecidable (l : List ℚ) : DecidableRel (idxGE l) :=
  fun i j => inferInstanceAs (Decidable (l.getD j 0 ≤ l.getD i 0))

instance idxGE.instIsTotal (l : List ℚ) : IsTotal Nat (idxGE l) :=
  ⟨fun i j => le_total (l.getD j 0) (l.getD i 0)⟩

instance idxGE.instIsTrans (l : List ℚ) : IsTrans Nat (idxGE l) :=
  ⟨fun _ _ _ hab hbc => le_trans hbc hab⟩

/-- `torch.sort(logits, descending=True)[1]`: the vocabulary indices ordered
by descending logit value. -/
def sortedIndices (logits : List ℚ) : List Nat :=
  List.insertionSort (idxGE logits) (List.range logits.length)

/-- Running cumulative sum, `torch.cumsum`. -/
def cumsum : List ℚ → List ℚ
  | [] => []
  | x :: xs => x :: (cumsum xs).map (fun c => x + c)

/-- The removal mask over sorted positions in the top-p branch
(`src/backend/main.py` lines 293-297): `cumulative_probs > top_p`, then
shifted right by one position (`[..., 1:] = [..., :-1]`) with the first
position forced to `False` (`[..., 0] = 0`), so the highest-probability
entry is always kept.  `smax` is the probability normalisation
(`F.softmax`) applied to the descending-sorted logits. -/
def topPShiftedMask (smax : List ℚ → List ℚ) (logits : List ℚ) (p : ℚ) : List Bool :=
  false ::
    ((cumsum (smax ((sortedIndices logits).map fun i => logits.getD i 0))).map
      fun c => decide (p < c)).dropLast

/-- The top-p (nucleus) filtering step (`src/backend/main.py` lines 292-299):
the shifted sorted-position mask is scattered back to vocabulary order
(`scatter(1, sorted_indices, ...)`: vocabulary index `i` is removed exactly
when the sorted position holding `i` is marked), and removed logits are set
to `-inf` (`none`). -/
def topPFilter (smax : List ℚ → List ℚ) (logits : List ℚ) (p : ℚ) : List (Option ℚ) :=
  (List.range logits.length).map fun i =>
    if (topPShiftedMask smax logits p).getD ((sortedIndices logits).indexOf i) false then none
    else some (logits.getD i 0)

/-- One strategy-dispatch step of the generation loop
(`src/backend/main.py` lines 279-304): scale the raw logits by
`1/temperature`, then branch on the strategy string. `greedy` (and any
unrecognised strategy, the final `else`) takes the arg-max; `top_k` and
`top_p` filter and then draw via the `sampler` oracle standing for
`torch.multinomial`.  A filtering failure (the `k = 0` IndexError)
surfaces as `Except.error`. -/
def chooseToken (sampler : List (Option ℚ) → Nat) (smax : List ℚ → List ℚ)
    (req : GenerationRequest) (logits : List ℚ) : Except String Nat :=
  let scaled := logits.map (fun x => x / req.temperature)
  if req.strategy = "greedy" then .ok (argmaxIdx scaled)
  else if req.strategy = "top_k" then
    match topKFilter scaled req.top_k with
    | .error e => .error e
    | .ok filtered => .ok (sampler filtered)
  else if req.strategy = "top_p" then
    .ok (sampler (topPFilter smax scaled req.top_p))
  else .ok (argmaxIdx scaled)

/-- Result of running the SSE generator to completion: the emitted lines in
order, how the generator ended, and the number of model forward passes. -/
structure GenResult where
  events : List StreamItem
  outcome : StreamEnd
  forwardCalls : Nat
  deriving DecidableEq, Repr

/-- The `for _ in range(request.max_new_tokens)` loop of `stream_generator`
(`src/backend/main.py` lines 275-322), with the remaining iteration count as
fuel.  Each iteration: model forward pass on the current id sequence
(an exception propagates, ending the stream), strategy dispatch (same), then
the chosen token is decoded and emitted with `finished=False`; the chosen id
is appended and the loop breaks when it equals `tokenizer.eos_token_id`. -/
def genLoop (tok : Tokenizer) (model : List Nat → Except String (List ℚ))
    (sampler : List (Option ℚ) → Nat) (smax : List ℚ → List ℚ)
    (req : GenerationRequest) : Nat → List Nat → GenResult
  | 0, _ => ⟨[], .normal, 0⟩
  | fuel + 1, ids =>
    match model ids with
    | .error e => ⟨[], .raised e, 1⟩
    | .ok logits =>
      match chooseToken sampler smax req logits with
      | .error e => ⟨[], .raised e, 1⟩
      | .ok next =>
        let ev := StreamItem.data (tok.decode next) false
        if tok.eosTokenId = some next then ⟨[ev], .normal, 1⟩
        else
          let rest := genLoop tok model sampler smax req fuel (ids ++ [next])
          ⟨ev :: rest.events, rest.outcome, rest.forwardCalls + 1⟩

/-- `stream_generator` (`src/backend/main.py` lines 260-325): if the model is
not loaded, a single error line is yielded and the generator returns; else
the prompt is encoded and the loop runs, and on normal completion the final
`{token: "", finished: true}` event is appended.  A propagated exception
ends the stream with no terminal event. -/
def stream_generator (loaded : Bool) (tok : Tokenizer)
    (model : List Nat → Except String (List ℚ))
    (sampler : List (Option ℚ) → Nat) (smax : List ℚ → List ℚ)
    (req : GenerationRequest) : GenResult :=
  if loaded then
    let r := genLoop tok model sampler smax req req.max_new_tokens.toNat (tok.encode req.prompt)
    match r.outcome with
    | .normal => ⟨r.events ++ [.data "" true], .normal, r.forwardCalls⟩
    | .raised e => ⟨r.events, .raised e, r.forwardCalls⟩
  else ⟨[.errorMsg "Model not loaded"], .normal, 0⟩

/-- The `/api/llm/generate_stream` endpoint (`src/backend/main.py`
lines 327-332): pydantic validation runs before the handler; an invalid
request is rejected with 422 before the generator is entered, a valid one
returns the streamed generator output. -/
def generate_stream_endpoint (loaded : Bool) (tok : Tokenizer)
    (model : List Nat → Except String (List ℚ))
    (sampler : List (Option ℚ) → Nat) (smax : List ℚ → List ℚ)
    (req : GenerationRequest) : Except String GenResult :=
  if validateRequest req then .ok (stream_generator loaded tok model sampler smax req)
  else .error "422 Unprocessable Entity"

/-- A token event that carries `finished=true`. -/
def isFinishedRecord : StreamItem → Bool
  | .data _ true => true
  | _ => false

/-- An error line (as opposed to a token event). -/
def isErrorRecord : StreamItem → Bool
  | .errorMsg _ => true
  | _ => false

/-- One-hot logit vector over a vocabulary of size `n`: 1 at index `i`,
0 elsewhere. -/
def oneHot (n i : Nat) : List ℚ :=
  (List.range n).map fun j => if j = i then 1 else 0

/-- Stub tokenizer for the spec's scenario: vocabulary `0 ↦ "1"`, `1 ↦ ","`,
`2 ↦ "2"`, `3 ↦ "<|endoftext|>"` with EOS id 3; every prompt encodes to the
single id 0. -/
def c1Tok : Tokenizer where
  encode := fun _ => [0]
  decode := fun i => ["1", ",", "2", "<|endoftext|>"].getD i "?"
  eosTokenId := some 3

/-- Stub model for the spec's scenario: on step `k` (current sequence length
`1 + k`) it deterministically puts all mass on the `k`-th entry of the
target sequence `"1" "," "2" "," EOS`, i.e. ids `[0, 1, 2, 1, 3]`. -/
def c1Model (ids : List Nat) : Except String (List ℚ) :=
  .ok (oneHot 4 ([0, 1, 2, 1, 3].getD (ids.length - 1) 3))

/-- Trivial sampler oracle (unused on the greedy path). -/
def sampler0 : List (Option ℚ) → Nat := fun _ => 0

/-- Trivial normalisation oracle (unused on the greedy path). -/
def smax0 : List ℚ → List ℚ := fun l => l

/-- The spec scenario's request: greedy strategy, budget 5, defaults
elsewhere. -/
def c1Req : GenerationRequest :=
  { prompt := "Count from 1 to 3:", strategy := "greedy", max_new_tokens := 5 }

/-- The request the schema admits but the top-k branch cannot serve:
`strategy = "top_k"` with `top_k = 0`. -/
def c10Req : GenerationRequest := { prompt := "hi", strategy := "top_k", top_k := 0 }

/-! ### Properties of the arg-max scan -/

/-- Full characterisation of the accumulator scan: either no element of the
tail beats the incumbent best (result is the incumbent index), or the result
is the position of the first maximal element strictly beating the incumbent. -/
lemma argmaxAux_spec (xs : List ℚ) : ∀ (best : ℚ) (bi i : Nat),
    (argmaxAux best bi i xs = bi ∧ ∀ k, k < xs.length → xs.getD k 0 ≤ best) ∨
    (∃ k, k < xs.length ∧ argmaxAux best bi i xs = i + k ∧ best < xs.getD k 0 ∧
      (∀ m, m < xs.length → xs.getD m 0 ≤ xs.getD k 0) ∧
      (∀ m, m < k → xs.getD m 0 < xs.getD k 0)) := by
  induction xs with
  | nil =>
    intro best bi i
    left
    exact ⟨rfl, fun k hk => by simp at hk⟩
  | cons x xs ih =>
    intro best bi i
    by_cases hbx : best < x
    · rcases ih x i (i + 1) with ⟨h1, h2⟩ | ⟨k, hk, hres, hlt, hmax, hfirst⟩
      · right
        refine ⟨0, by simp, ?_, by simpa using hbx, ?_, ?_⟩
        · simp [argmaxAux, hbx, h1]
        · intro m hm
          cases m with
          | zero => simp
          | succ m => simpa using h2 m (by simpa using hm)
        · intro m hm; omega
      · right
        refine ⟨k + 1, by simpa using hk, ?_, ?_, ?_, ?_⟩
        · simp only [argmaxAux, if_pos hbx, hres]; omega
        · simpa using lt_trans hbx hlt
        · intro m hm
          cases m with
          | zero => simpa using le_of_lt (lt_of_lt_of_le hlt (le_refl _)) |>.trans (le_refl _) |>.trans (le_refl _)
          | succ m => simpa using hmax m (by simpa using hm)
        · intro m hm
          cases m with
          | zero => simpa using hlt
          | succ m => simpa using hfirst m (by omega)
    · rcases ih best bi (i + 1) with ⟨h1, h2⟩ | ⟨k, hk, hres, hlt, hmax, hfirst⟩
      · left
        refine ⟨by simp [argmaxAux, hbx, h1], ?_⟩
        intro k hk
        cases k with
        | zero => simpa using le_of_not_lt hbx
        | succ k => simpa using h2 k (by simpa using hk)
      · right
        refine ⟨k + 1, by simpa using hk, ?_, ?_, ?_, ?_⟩
        · simp only [argmaxAux, if_neg hbx, hres]; omega
        · simpa using hlt
        · intro m hm
          cases m with
          | zero => simpa using le_trans (le_of_not_lt hbx) (le_of_lt hlt)
          | succ m => simpa using hmax m (by simpa using hm)
        · intro m hm
          cases m with
          | zero => simpa using lt_of_le_of_lt (le_of_not_lt hbx) hlt
          | succ m => simpa using hfirst m (by omega)

/-- The arg-max value dominates every entry of the vector. -/
lemma argmaxIdx_le (l : List ℚ) (j : Nat) (hj : j < l.length) :
    l.getD j 0 ≤ l.getD (argmaxIdx l) 0 := by
  cases l with
  | nil => simp at hj
  | cons x xs =>
    show (x :: xs).getD j 0 ≤ (x :: xs).getD (argmaxAux x 0 1 xs) 0
    rcases argmaxAux_spec xs x 0 1 with ⟨h1, h2⟩ | ⟨k, hk, hres, hlt, hmax, _⟩
    · rw [h1]
      cases j with
      | zero => simp
      | succ j => simpa using h2 j (by simpa using hj)
    · rw [hres]
      have hgk : (x :: xs).getD (1 + k) 0 = xs.getD k 0 := by
        rw [Nat.add_comm]; simp
      rw [hgk]
      cases j with
      | zero => simpa using le_of_lt hlt
      | succ j => simpa using hmax j (by simpa using hj)

/-- Ties are broken by lowest index: every entry strictly before the arg-max
index is strictly below the arg-max value. -/
lemma argmaxIdx_first (l : List ℚ) (j : Nat) (hj : j < argmaxIdx l) :
    l.getD j 0 < l.getD (argmaxIdx l) 0 := by
  cases l with
  | nil => simp [argmaxIdx] at hj
  | cons x xs =>
    show (x :: xs).getD j 0 < (x :: xs).getD (argmaxAux x 0 1 xs) 0
    have hj' : j < argmaxAux x 0 1 xs := hj
    rcases argmaxAux_spec xs x 0 1 with ⟨h1, _⟩ | ⟨k, hk, hres, hlt, _, hfirst⟩
    · rw [h1] at hj'; omega
    · rw [hres] at hj' ⊢
      have hgk : (x :: xs).getD (1 + k) 0 = xs.getD k 0 := by
        rw [Nat.add_comm]; simp
      rw [hgk]
      cases j with
      | zero => simpa using hlt
      | succ j => simpa using hfirst j (by omega)

/-- The arg-max index is in range for a nonempty vector. -/
lemma argmaxIdx_lt_length (l : List ℚ) (h : l ≠ []) : argmaxIdx l < l.length := by
  cases l with
  | nil => exact absurd rfl h
  | cons x xs =>
    show argmaxAux x 0 1 xs < (x :: xs).length
    rcases argmaxAux_spec xs x 0 1 with ⟨h1, _⟩ | ⟨k, hk, hres, _, _, _⟩
    · rw [h1]; simp
    · rw [hres]; simp; omega

/-- Scaling every entry by `1/τ` with `τ > 0` does not change the scan. -/
lemma argmaxAux_map_div (τ : ℚ) (hτ : 0 < τ) (xs : List ℚ) :
    ∀ (best : ℚ) (bi i : Nat),
      argmaxAux (best / τ) bi i (xs.map fun x => x / τ) = argmaxAux best bi i xs := by
  induction xs with
  | nil => intro best bi i; rfl
  | cons x xs ih =>
    intro best bi i
    simp only [List.map, argmaxAux]
    by_cases hbx : best < x
    · have hd : best / τ < x / τ := by rwa [div_lt_div_iff_of_pos_right hτ]
      simp [hbx, hd, ih]
    · have hd : ¬ best / τ < x / τ := by rwa [div_lt_div_iff_of_pos_right hτ]
      simp [hbx, hd, ih]

/-- Temperature invariance of the arg-max: dividing a logit vector by any
positive temperature leaves `torch.argmax` unchanged. -/
lemma argmaxIdx_map_div (τ : ℚ) (hτ : 0 < τ) (l : List ℚ) :
    argmaxIdx (l.map fun x => x / τ) = argmaxIdx l := by
  cases l with
  | nil => rfl
  | cons x xs =>
    simp only [List.map, argmaxIdx]
    exact argmaxAux_map_div τ hτ xs x 0 1

/-- On the greedy branch the chosen token is the arg-max of the *raw* logits:
the temperature scaling cancels out. -/
lemma chooseToken_greedy (sampler : List (Option ℚ) → Nat) (smax : List ℚ → List ℚ)
    (req : GenerationRequest) (logits : List ℚ)
    (hs : req.strategy = "greedy") (ht : 0 < req.temperature) :
    chooseToken sampler smax req logits = .ok (argmaxIdx logits) := by
  simp [chooseToken, hs, argmaxIdx_map_div req.temperature ht]

/-! ### Structural properties of the generation loop -/

/-- Step equation: the forward pass raises. -/
lemma genLoop_succ_raise {tok model sampler smax req n ids e}
    (hm : model ids = Except.error e) :
    genLoop tok model sampler smax req (n + 1) ids = ⟨[], .raised e, 1⟩ := by
  simp [genLoop, hm]

/-- Step equation: the forward pass succeeds but the strategy step raises. -/
lemma genLoop_succ_chooseRaise {tok model sampler smax req n ids logits e}
    (hm : model ids = Except.ok logits)
    (hc : chooseToken sampler smax req logits = Except.error e) :
    genLoop tok model sampler smax req (n + 1) ids = ⟨[], .raised e, 1⟩ := by
  simp [genLoop, hm, hc]

/-- Step equation: the chosen token is the EOS id — its decoded event is
emitted and the loop stops. -/
lemma genLoop_succ_eos {tok : Tokenizer} {model sampler smax req n ids logits next}
    (hm : model ids = Except.ok logits)
    (hc : chooseToken sampler smax req logits = Except.ok next)
    (he : tok.eosTokenId = some next) :
    genLoop tok model sampler smax req (n + 1) ids
      = ⟨[.data (tok.decode next) false], .normal, 1⟩ := by
  simp [genLoop, hm, hc, he]

/-- Step equation: a non-EOS token is chosen — its event is emitted and the
loop continues on the extended id sequence. -/
lemma genLoop_succ_cont {tok : Tokenizer} {model sampler smax req n ids logits next}
    (hm : model ids = Except.ok logits)
    (hc : chooseToken sampler smax req logits = Except.ok next)
    (he : ¬ tok.eosTokenId = some next) :
    genLoop tok model sampler smax req (n + 1) ids
      = ⟨.data (tok.decode next) false
            :: (genLoop tok model sampler smax req n (ids ++ [next])).events,
          (genLoop tok model sampler smax req n (ids ++ [next])).outcome,
          (genLoop tok model sampler smax req n (ids ++ [next])).forwardCalls + 1⟩ := by
  simp [genLoop, hm, hc, he]

/-- Two requests on which the strategy dispatch agrees step-for-step drive the
loop to the same result. -/
lemma genLoop_congr_choose (tok : Tokenizer) (model : List Nat → Except String (List ℚ))
    (sampler : List (Option ℚ) → Nat) (smax : List ℚ → List ℚ)
    (r₁ r₂ : GenerationRequest)
    (h : ∀ logits, chooseToken sampler smax r₁ logits = chooseToken sampler smax r₂ logits) :
    ∀ fuel ids, genLoop tok model sampler smax r₁ fuel ids
      = genLoop tok model sampler smax r₂ fuel ids := by
  intro fuel
  induction fuel with
  | zero => intro ids; rfl
  | succ n ih =>
    intro ids
    cases hm : model ids with
    | error e => rw [genLoop_succ_raise hm, genLoop_succ_raise hm]
    | ok logits =>
      cases hc : chooseToken sampler smax r₂ logits with
      | error e =>
        rw [genLoop_succ_chooseRaise hm ((h logits).trans hc),
          genLoop_succ_chooseRaise hm hc]
      | ok next =>
        by_cases he : tok.eosTokenId = some next
        · rw [genLoop_succ_eos hm ((h logits).trans hc) he, genLoop_succ_eos hm hc he]
        · rw [genLoop_succ_cont hm ((h logits).trans hc) he, genLoop_succ_cont hm hc he, ih]

/-- Every line emitted inside the loop is a token event with
`finished = false` (the terminal event and the not-loaded error line are
produced outside the loop). -/
lemma genLoop_events_shape (tok : Tokenizer) (model : List Nat → Except String (List ℚ))
    (sampler : List (Option ℚ) → Nat) (smax : List ℚ → List ℚ) (req : GenerationRequest) :
    ∀ fuel ids e, e ∈ (genLoop tok model sampler smax req fuel ids).events →
      ∃ s, e = .data s false := by
  intro fuel
  induction fuel with
  | zero => intro ids e he; simp [genLoop] at he
  | succ n ih =>
    intro ids e he
    cases hm : model ids with
    | error msg => rw [genLoop_succ_raise hm] at he; simp at he
    | ok logits =>
      cases hc : chooseToken sampler smax req logits with
      | error msg => rw [genLoop_succ_chooseRaise hm hc] at he; simp at he
      | ok next =>
        by_cases heos : tok.eosTokenId = some next
        · rw [genLoop_succ_eos hm hc heos] at he
          simp at he
          exact ⟨tok.decode next, he⟩
        · rw [genLoop_succ_cont hm hc heos] at he
          simp only [List.mem_cons] at he
          rcases he with he | he
          · exact ⟨tok.decode next, he⟩
          · exact ih (ids ++ [next]) e he

/-- The loop performs at most `fuel` forward passes. -/
lemma genLoop_calls_le (tok : Tokenizer) (model : List Nat → Except String (List ℚ))
    (sampler : List (Option ℚ) → Nat) (smax : List ℚ → List ℚ) (req : GenerationRequest) :
    ∀ fuel ids, (genLoop tok model sampler smax req fuel ids).forwardCalls ≤ fuel := by
  intro fuel
  induction fuel with
  | zero => intro ids; simp [genLoop]
  | succ n ih =>
    intro ids
    cases hm : model ids with
    | error e => rw [genLoop_succ_raise hm]; simp
    | ok logits =>
      cases hc : chooseToken sampler smax req logits with
      | error e => rw [genLoop_succ_chooseRaise hm hc]; simp
      | ok next =>
        by_cases heos : tok.eosTokenId = some next
        · rw [genLoop_succ_eos hm hc heos]; simp
        · rw [genLoop_succ_cont hm hc heos]
          have := ih (ids ++ [next])
          simp only []
          omega

/-- With the model loaded, the streamed result's forward-pass count is the
loop's. -/
lemma stream_forwardCalls (tok : Tokenizer) (model : List Nat → Except String (List ℚ))
    (sampler : List (Option ℚ) → Nat) (smax : List ℚ → List ℚ) (req : GenerationRequest) :
    (stream_generator true tok model sampler smax req).forwardCalls =
      (genLoop tok model sampler smax req req.max_new_tokens.toNat
        (tok.encode req.prompt)).forwardCalls := by
  simp only [stream_generator, if_pos]
  cases (genLoop tok model sampler smax req req.max_new_tokens.toNat
      (tok.encode req.prompt)).outcome <;> rfl

/-! ### Properties of the filtering steps -/

/-- In a descending-sorted list, the final entry is a lower bound. -/
lemma sorted_ge_bottom : ∀ (l : List ℚ), List.Sorted (· ≥ ·) l →
    ∀ x ∈ l, l.getD (l.length - 1) 0 ≤ x := by
  intro l
  induction l with
  | nil => intro _ x hx; simp at hx
  | cons a t ih =>
    intro hs x hx
    cases t with
    | nil =>
      simp only [List.mem_singleton] at hx
      simp [hx]
    | cons b t' =>
      have hbot : (a :: b :: t').getD ((a :: b :: t').length - 1) 0
          = (b :: t').getD ((b :: t').length - 1) 0 := by
        simp [List.getD_cons_succ]
      rcases List.mem_cons.mp hx with rfl | hx'
      · rw [hbot]
        have hlt : (b :: t').length - 1 < (b :: t').length := by simp
        have hmem : (b :: t').getD ((b :: t').length - 1) 0 ∈ b :: t' := by
          rw [List.getD_eq_getElem _ _ hlt]
          exact List.getElem_mem _
        exact List.rel_of_sorted_cons hs _ hmem
      · rw [hbot]
        exact ih hs.of_cons x hx'

/-- The descending index sort is a permutation of the vocabulary indices. -/
lemma sortedIndices_perm (logits : List ℚ) :
    (sortedIndices logits).Perm (List.range logits.length) :=
  List.perm_insertionSort _ _

/-- The descending index sort is sorted by descending logit value. -/
lemma sortedIndices_sorted (logits : List ℚ) :
    List.Sorted (idxGE logits) (sortedIndices logits) :=
  List.sorted_insertionSort _ _

/-- The head of the descending index sort is a maximal-logit index; every
index's logit is bounded by the head's logit. -/
lemma sortedIndices_head_max (logits : List ℚ) (i0 : Nat) (rest : List Nat)
    (hS : sortedIndices logits = i0 :: rest) :
    i0 < logits.length ∧
      ∀ j, j < logits.length → logits.getD j 0 ≤ logits.getD i0 0 := by
  have hperm := sortedIndices_perm logits
  rw [hS] at hperm
  constructor
  · have : i0 ∈ List.range logits.length := hperm.mem_iff.mp (List.mem_cons_self i0 rest)
    simpa using this
  · intro j hj
    have hjmem : j ∈ i0 :: rest := hperm.mem_iff.mpr (List.mem_range.mpr hj)
    rcases List.mem_cons.mp hjmem with rfl | hjr
    · exact le_refl _
    · have hsorted := sortedIndices_sorted logits
      rw [hS] at hsorted
      exact List.rel_of_sorted_cons hsorted _ hjr

/-- Claim C5 core: when the configured `top_k` is at least the vocabulary
size, the clamp `k = min(top_k, vocab)` makes the `k`-th-largest threshold
the minimum logit, so the mask removes nothing: the top-k filtering step
returns the input vector unchanged (every entry kept) and does not error. -/
theorem topKFilter_clamp_id (logits : List ℚ) (k : Int)
    (hk : (logits.length : Int) ≤ k) (hne : logits ≠ []) :
    topKFilter logits k = .ok (logits.map some) := by
  have hn : 0 < logits.length := List.length_pos.mpr hne
  have hmin : min k (logits.length : Int) = (logits.length : Int) := min_eq_right hk
  have hnpos : ¬ ((logits.length : Int) ≤ 0) := by
    simp only [not_le]
    exact_mod_cast hn
  have hsortlen : (List.insertionSort (· ≥ ·) logits).length = logits.length :=
    (List.perm_insertionSort _ _).length_eq
  have hidx : logits.length - 1 < (List.insertionSort (· ≥ ·) logits).length := by
    rw [hsortlen]; omega
  have hkth : kthLargest logits ((logits.length : Int))
      = some ((List.insertionSort (· ≥ ·) logits).getD (logits.length - 1) 0) := by
    rw [kthLargest, if_neg hnpos]
    rw [List.getD_eq_getElem _ _ hidx]
    rw [List.get?_eq_get (by simpa using hidx)]
    simp
  have hthr : ∀ x ∈ logits,
      (List.insertionSort (· ≥ ·) logits).getD (logits.length - 1) 0 ≤ x := by
    intro x hx
    have hx' : x ∈ List.insertionSort (· ≥ ·) logits :=
      (List.perm_insertionSort _ _).mem_iff.mpr hx
    have := sorted_ge_bottom (List.insertionSort (· ≥ ·) logits)
      (List.sorted_insertionSort _ _) x hx'
    rwa [hsortlen] at this
  simp only [topKFilter, hmin, hkth]
  congr 1
  apply List.map_congr_left
  intro x hx
  rw [if_neg (not_lt.mpr (hthr x hx))]

/-- Claim C4 core: the nucleus filtering step never masks a maximal-logit
entry.  The entry that the descending sort places first has its removal flag
hard-wired to `False` and the scatter maps that flag back to its vocabulary
index, so a maximal entry survives for every probability normalisation
`smax`, every threshold `p`, and in particular when the top probability
alone exceeds `p`. -/
theorem topPFilter_keeps_max (smax : List ℚ → List ℚ) (logits : List ℚ) (p : ℚ)
    (hne : logits ≠ []) :
    ∃ i, i < logits.length ∧
      (∀ j, j < logits.length → logits.getD j 0 ≤ logits.getD i 0) ∧
      (topPFilter smax logits p).getD i none = some (logits.getD i 0) := by
  have hn : 0 < logits.length := List.length_pos.mpr hne
  have hlen : (sortedIndices logits).length = logits.length := by
    have := (sortedIndices_perm logits).length_eq
    simpa using this
  cases hS : sortedIndices logits with
  | nil => rw [hS] at hlen; simp at hlen; omega
  | cons i0 rest =>
    obtain ⟨hi0, hmax⟩ := sortedIndices_head_max logits i0 rest hS
    refine ⟨i0, hi0, hmax, ?_⟩
    have hres : (topPFilter smax logits p).get? i0
        = some (if (topPShiftedMask smax logits p).getD
            ((sortedIndices logits).indexOf i0) false then none
          else some (logits.getD i0 0)) := by
      rw [topPFilter, List.get?_map, List.get?_range hi0]
      rfl
    have hzero : (sortedIndices logits).indexOf i0 = 0 := by
      rw [hS]; exact List.indexOf_cons_self i0 rest
    rw [List.getD_eq_getD_get?, hres, hzero]
    simp [topPShiftedMask]

/-! ### Stream-level helper lemmas -/

/-- The streamed outcome is the loop's outcome. -/
lemma stream_outcome_eq (tok : Tokenizer) (model : List Nat → Except String (List ℚ))
    (sampler : List (Option ℚ) → Nat) (smax : List ℚ → List ℚ) (req : GenerationRequest) :
    (stream_generator true tok model sampler smax req).outcome =
      (genLoop tok model sampler smax req req.max_new_tokens.toNat
        (tok.encode req.prompt)).outcome := by
  cases h : (genLoop tok model sampler smax req req.max_new_tokens.toNat
      (tok.encode req.prompt)).outcome <;> simp [stream_generator, h]

/-- On normal completion the terminal event is appended after the loop's
events. -/
lemma stream_events_normal (tok : Tokenizer) (model : List Nat → Except String (List ℚ))
    (sampler : List (Option ℚ) → Nat) (smax : List ℚ → List ℚ) (req : GenerationRequest)
    (h : (genLoop tok model sampler smax req req.max_new_tokens.toNat
        (tok.encode req.prompt)).outcome = .normal) :
    (stream_generator true tok model sampler smax req).events =
      (genLoop tok model sampler smax req req.max_new_tokens.toNat
        (tok.encode req.prompt)).events ++ [.data "" true] := by
  simp [stream_generator, h]

/-- On a propagated exception the stream ends with exactly the loop's events:
nothing is appended. -/
lemma stream_events_raised (tok : Tokenizer) (model : List Nat → Except String (List ℚ))
    (sampler : List (Option ℚ) → Nat) (smax : List ℚ → List ℚ) (req : GenerationRequest)
    (e : String)
    (h : (genLoop tok model sampler smax req req.max_new_tokens.toNat
        (tok.encode req.prompt)).outcome = .raised e) :
    (stream_generator true tok model sampler smax req).events =
      (genLoop tok model sampler smax req req.max_new_tokens.toNat
        (tok.encode req.prompt)).events := by
  simp [stream_generator, h]

/-- Requests that agree on prompt, step budget, and step-for-step strategy
dispatch stream identically. -/
lemma stream_congr (tok : Tokenizer) (model : List Nat → Except String (List ℚ))
    (sampler : List (Option ℚ) → Nat) (smax : List ℚ → List ℚ)
    (r₁ r₂ : GenerationRequest)
    (hprompt : r₁.prompt = r₂.prompt) (hmax : r₁.max_new_tokens = r₂.max_new_tokens)
    (hchoose : ∀ logits, chooseToken sampler smax r₁ logits
      = chooseToken sampler smax r₂ logits) :
    stream_generator true tok model sampler smax r₁
      = stream_generator true tok model sampler smax r₂ := by
  have hloop := genLoop_congr_choose tok model sampler smax r₁ r₂ hchoose
  simp only [stream_generator, if_pos, hprompt, hmax, hloop]

/-! ### Claim theorems -/

/-- C1 (counterexample): in the spec's scenario (greedy, budget 5, stub
emitting "1" "," "2" "," EOS) the engine does NOT emit exactly 5 events as
the claim states: when the EOS id is chosen its decoded token event
(`finished=false`) is emitted before the terminal event, giving 6 events,
and the terminal event comes after the EOS-bearing one. -/
theorem c1_counterexample :
    ¬ ((stream_generator true c1Tok c1Model sampler0 smax0 c1Req).events.length = 5) := by
  with_unfolding_all decide

/-- C1 (amended): in the spec's scenario the engine emits the four decoded
tokens, then the EOS-bearing event (decoded EOS text, `finished=false`),
then the final empty event with `finished=true` — 6 events in all, token
texts concatenating to "1,2," followed by the decoded EOS text — and it
stops calling the model once EOS is chosen: exactly 5 forward passes, even
with a larger step budget. -/
theorem c1_amended :
    stream_generator true c1Tok c1Model sampler0 smax0 c1Req =
      ⟨[.data "1" false, .data "," false, .data "2" false, .data "," false,
        .data "<|endoftext|>" false, .data "" true], .normal, 5⟩ ∧
    stream_generator true c1Tok c1Model sampler0 smax0 { c1Req with max_new_tokens := 50 } =
      ⟨[.data "1" false, .data "," false, .data "2" false, .data "," false,
        .data "<|endoftext|>" false, .data "" true], .normal, 5⟩ := by
  constructor
  · with_unfolding_all rfl
  · with_unfolding_all rfl

/-- C2 (counterexample): "model available and no forward pass raises" does
not suffice for a terminal event.  For the schema-valid request with
`strategy = "top_k"` and `top_k = 0`, against a model whose forward pass
succeeds (the one pass performed returns `.ok [1, 2]`; the model function
raises on no input), the top-k *filtering* step raises after the successful
forward pass and the stream ends with zero `finished=true` records —
refuting "the event sequence contains exactly one record with
finished=true". -/
theorem c2_counterexample :
    validateRequest c10Req = true ∧
    (fun (_ : List Nat) => (Except.ok [(1 : ℚ), 2] : Except String (List ℚ)))
        (c1Tok.encode c10Req.prompt) = .ok [(1 : ℚ), 2] ∧
    (stream_generator true c1Tok
        (fun _ => .ok [(1 : ℚ), 2]) sampler0 smax0 c10Req).forwardCalls = 1 ∧
    (stream_generator true c1Tok
        (fun _ => .ok [(1 : ℚ), 2]) sampler0 smax0 c10Req).events.countP
      isFinishedRecord = 0 :=
  ⟨by with_unfolding_all decide, by with_unfolding_all rfl,
    by with_unfolding_all decide, by with_unfolding_all decide⟩

/-- C2 (amended): whenever the model is loaded and no generation step raises
— neither a forward pass nor the strategy's filtering step, i.e. the
generator completes normally — the streamed event sequence is exactly the
loop's per-step token events in production order followed by the single
terminal event: every non-terminal record has `finished=false`, exactly one
record has `finished=true`, and it is the last record — also on early stop
(EOS or exhausted budget), since the terminal append does not depend on how
the loop ended. -/
theorem c2_stream_order_terminal (tok : Tokenizer)
    (model : List Nat → Except String (List ℚ))
    (sampler : List (Option ℚ) → Nat) (smax : List ℚ → List ℚ) (req : GenerationRequest)
    (h : (stream_generator true tok model sampler smax req).outcome = .normal) :
    (stream_generator true tok model sampler smax req).events
      = (genLoop tok model sampler smax req req.max_new_tokens.toNat
          (tok.encode req.prompt)).events ++ [.data "" true] ∧
    (∀ e ∈ (genLoop tok model sampler smax req req.max_new_tokens.toNat
        (tok.encode req.prompt)).events, ∃ s, e = .data s false) ∧
    (stream_generator true tok model sampler smax req).events.countP isFinishedRecord = 1 ∧
    (stream_generator true tok model sampler smax req).events.getLast?
      = some (.data "" true) := by
  have hL : (genLoop tok model sampler smax req req.max_new_tokens.toNat
      (tok.encode req.prompt)).outcome = .normal := by
    rw [← stream_outcome_eq]; exact h
  have hev := stream_events_normal tok model sampler smax req hL
  have hshape := genLoop_events_shape tok model sampler smax req
    req.max_new_tokens.toNat (tok.encode req.prompt)
  refine ⟨hev, hshape, ?_, ?_⟩
  · rw [hev, List.countP_append]
    have hz : (genLoop tok model sampler smax req req.max_new_tokens.toNat
        (tok.encode req.prompt)).events.countP isFinishedRecord = 0 := by
      rw [List.countP_eq_zero]
      intro e he
      obtain ⟨s, rfl⟩ := hshape e he
      simp [isFinishedRecord]
    rw [hz]
    simp [isFinishedRecord]
  · rw [hev, List.getLast?_concat]

/-- C2 witness: the scenario stub completes normally, and its stream carries
exactly one `finished=true` record. -/
theorem c2_witness :
    (stream_generator true c1Tok c1Model sampler0 smax0 c1Req).events.countP
      isFinishedRecord = 1 :=
  (c2_stream_order_terminal c1Tok c1Model sampler0 smax0 c1Req
    (by with_unfolding_all decide)).2.2.1

/-- C3: with `strategy = greedy`, generation is deterministic and temperature
invariant: the whole streamed result is the same for any two positive
temperatures, the chosen token at each step is `argmax` of the *raw* logits
(the `v/τ` scaling never changes the arg-max), and that arg-max takes the
maximum entry with ties broken by the lowest index. -/
theorem c3_greedy_deterministic (tok : Tokenizer)
    (model : List Nat → Except String (List ℚ))
    (sampler : List (Option ℚ) → Nat) (smax : List ℚ → List ℚ)
    (req : GenerationRequest) (τ₁ τ₂ : ℚ)
    (hs : req.strategy = "greedy") (h1 : 0 < τ₁) (h2 : 0 < τ₂) :
    stream_generator true tok model sampler smax { req with temperature := τ₁ }
      = stream_generator true tok model sampler smax { req with temperature := τ₂ } ∧
    ∀ logits : List ℚ,
      chooseToken sampler smax { req with temperature := τ₁ } logits
        = .ok (argmaxIdx logits) ∧
      (∀ j, j < logits.length → logits.getD j 0 ≤ logits.getD (argmaxIdx logits) 0) ∧
      (∀ j, j < argmaxIdx logits → logits.getD j 0 < logits.getD (argmaxIdx logits) 0) := by
  have hc1 : ∀ logits, chooseToken sampler smax { req with temperature := τ₁ } logits
      = .ok (argmaxIdx logits) :=
    fun logits => chooseToken_greedy sampler smax _ logits hs h1
  have hc2 : ∀ logits, chooseToken sampler smax { req with temperature := τ₂ } logits
      = .ok (argmaxIdx logits) :=
    fun logits => chooseToken_greedy sampler smax _ logits hs h2
  refine ⟨?_, ?_⟩
  · exact stream_congr tok model sampler smax _ _ rfl rfl
      (fun logits => (hc1 logits).trans (hc2 logits).symm)
  · intro logits
    exact ⟨hc1 logits, fun j hj => argmaxIdx_le logits j hj,
      fun j hj => argmaxIdx_first logits j hj⟩

/-- C3 witness: on the scenario stub the greedy stream at temperature 1
equals the greedy stream at temperature 2. -/
theorem c3_witness :
    stream_generator true c1Tok c1Model sampler0 smax0 { c1Req with temperature := 1 }
      = stream_generator true c1Tok c1Model sampler0 smax0
          { c1Req with temperature := 2 } :=
  (c3_greedy_deterministic c1Tok c1Model sampler0 smax0 c1Req 1 2 rfl
    (by norm_num) (by norm_num)).1

/-- C4: for every probability normalisation, every logit vector, and every
`top_p` in (0,1], the nucleus filtering step keeps a maximal-logit entry
unmasked (its removal flag is hard-wired off at the first sorted position),
so the candidate set after filtering is non-empty — also when the top
entry's probability alone already exceeds `top_p`. -/
theorem c4_top_p_nonempty (smax : List ℚ → List ℚ) (logits : List ℚ) (p : ℚ)
    (hp0 : 0 < p) (hp1 : p ≤ 1) (hne : logits ≠ []) :
    (∃ i, i < logits.length ∧
      (∀ j, j < logits.length → logits.getD j 0 ≤ logits.getD i 0) ∧
      (topPFilter smax logits p).getD i none = some (logits.getD i 0)) ∧
    (topPFilter smax logits p).any Option.isSome = true := by
  obtain ⟨i, hi, hmax, hgd⟩ := topPFilter_keeps_max smax logits p hne
  refine ⟨⟨i, hi, hmax, hgd⟩, ?_⟩
  have hlen : (topPFilter smax logits p).length = logits.length := by
    simp [topPFilter]
  have hi' : i < (topPFilter smax logits p).length := by omega
  have hget : (topPFilter smax logits p).get? i
      = some ((topPFilter smax logits p).getD i none) := by
    rw [List.getD_eq_getElem _ _ hi', List.get?_eq_get hi']
    simp
  rw [hgd] at hget
  have hmem : some (logits.getD i 0) ∈ topPFilter smax logits p := List.get?_mem hget
  exact List.any_eq_true.mpr ⟨some (logits.getD i 0), hmem, rfl⟩

/-- C4 witness: vector `[3, 1, 2]` with `p = 1/2` keeps its maximum. -/
theorem c4_witness :
    (∃ i, i < ([(3 : ℚ), 1, 2]).length ∧
      (∀ j, j < ([(3 : ℚ), 1, 2]).length →
        ([(3 : ℚ), 1, 2]).getD j 0 ≤ ([(3 : ℚ), 1, 2]).getD i 0) ∧
      (topPFilter smax0 [(3 : ℚ), 1, 2] (1/2)).getD i none
        = some (([(3 : ℚ), 1, 2]).getD i 0)) ∧
    (topPFilter smax0 [(3 : ℚ), 1, 2] (1/2)).any Option.isSome = true :=
  c4_top_p_nonempty smax0 [(3 : ℚ), 1, 2] (1/2) (by norm_num) (by norm_num) (by simp)

/-- C5: when the configured `top_k` is at least the vocabulary size, the
clamp `k = min(top_k, vocab)` makes the threshold the minimum logit and the
top-k filtering step masks nothing and does not error: the filtered vector
is the input vector with every entry kept. -/
theorem c5_top_k_clamp (logits : List ℚ) (k : Int)
    (hk : (logits.length : Int) ≤ k) (hne : logits ≠ []) :
    topKFilter logits k = .ok (logits.map some) :=
  topKFilter_clamp_id logits k hk hne

/-- C5 witness: a two-entry vocabulary with `top_k = 5` keeps both
entries. -/
theorem c5_witness : topKFilter [(1 : ℚ), 2] 5 = .ok ([(1 : ℚ), 2].map some) :=
  c5_top_k_clamp [(1 : ℚ), 2] 5 (by norm_num) (by simp)

/-- C6: the loop is bounded — at most `max_new_tokens` forward passes are
performed before the terminal event — and when every step's forward pass
yields logits whose chosen token is the EOS id, a positive budget performs
exactly one forward pass before terminating. -/
theorem c6_termination_bound (tok : Tokenizer)
    (model : List Nat → Except String (List ℚ))
    (sampler : List (Option ℚ) → Nat) (smax : List ℚ → List ℚ) (req : GenerationRequest) :
    (stream_generator true tok model sampler smax req).forwardCalls
        ≤ req.max_new_tokens.toNat ∧
    ((∀ ids, ∃ logits t, model ids = .ok logits ∧
        chooseToken sampler smax req logits = .ok t ∧ tok.eosTokenId = some t) →
      1 ≤ req.max_new_tokens.toNat →
      (stream_generator true tok model sampler smax req).forwardCalls = 1) := by
  constructor
  · rw [stream_forwardCalls]
    exact genLoop_calls_le tok model sampler smax req _ _
  · intro hEos hpos
    rw [stream_forwardCalls]
    obtain ⟨m, hm⟩ : ∃ m, req.max_new_tokens.toNat = m + 1 :=
      ⟨req.max_new_tokens.toNat - 1, by omega⟩
    rw [hm]
    obtain ⟨logits, t, hmodel, hchoose, heos⟩ := hEos (tok.encode req.prompt)
    rw [genLoop_succ_eos hmodel hchoose heos]

/-- C6 witness: a stub whose forward pass always makes greedy choose the EOS
id performs exactly one forward pass under budget 5. -/
theorem c6_witness :
    (stream_generator true c1Tok (fun _ => .ok (oneHot 4 3)) sampler0 smax0
      c1Req).forwardCalls = 1 :=
  (c6_termination_bound c1Tok (fun _ => .ok (oneHot 4 3)) sampler0 smax0 c1Req).2
    (fun _ => ⟨oneHot 4 3, 3, rfl, by with_unfolding_all rfl, rfl⟩)
    (by with_unfolding_all decide)

/-- C7 (counterexample): a request with an empty prompt AND a step budget of
0 passes pydantic validation (the schema bounds only prompt length from
above, `max_new_tokens` from above, temperature in [0.1, 2], `top_k ≥ 0`,
`top_p` in [0,1]) and reaches the generator, which even emits its terminal
event — refuting "rejected synchronously at the request boundary". -/
theorem c7_counterexample :
    validateRequest { prompt := "", max_new_tokens := 0 } = true ∧
    generate_stream_endpoint true c1Tok c1Model sampler0 smax0
        { prompt := "", max_new_tokens := 0 }
      = .ok ⟨[.data "" true], .normal, 0⟩ :=
  ⟨by with_unfolding_all decide, by with_unfolding_all rfl⟩

/-- C7 (amended): of the three conditions the claim lists, only the
temperature one is enforced: every request with `temperature ≤ 0` (indeed
with `temperature < 0.1`) is rejected synchronously at the request boundary,
before the generator runs and before any event; empty prompts and
non-positive step budgets are accepted by the schema. -/
theorem c7_amended (loaded : Bool) (tok : Tokenizer)
    (model : List Nat → Except String (List ℚ))
    (sampler : List (Option ℚ) → Nat) (smax : List ℚ → List ℚ)
    (r : GenerationRequest) (h : r.temperature ≤ 0) :
    generate_stream_endpoint loaded tok model sampler smax r
      = .error "422 Unprocessable Entity" := by
  have hv : validateRequest r = false := by
    cases hvr : validateRequest r
    · rfl
    · exfalso
      simp only [validateRequest, Bool.and_eq_true, decide_eq_true_eq] at hvr
      obtain ⟨⟨⟨⟨⟨⟨_, _⟩, h10⟩, _⟩, _⟩, _⟩, _⟩ := hvr
      linarith
  simp [generate_stream_endpoint, hv]

/-- C7 witness: a request with temperature −1 is rejected at the boundary. -/
theorem c7_witness :
    generate_stream_endpoint true c1Tok c1Model sampler0 smax0
        { prompt := "hi", temperature := -1 }
      = .error "422 Unprocessable Entity" :=
  c7_amended true c1Tok c1Model sampler0 smax0 { prompt := "hi", temperature := -1 }
    (by norm_num)

/-- C8 (counterexample): the generator never consults `model_id`: with the
model loaded, a request naming a model that is not loaded anywhere runs a
full generation — 5 forward passes, 6 events, no error record — refuting
"an unknown model identifier fails the request before any token event". -/
theorem c8_counterexample :
    (stream_generator true c1Tok c1Model sampler0 smax0
        { c1Req with model_id := "no-such-model" }).forwardCalls = 5 ∧
    (stream_generator true c1Tok c1Model sampler0 smax0
        { c1Req with model_id := "no-such-model" }).events.countP isErrorRecord = 0 ∧
    (stream_generator true c1Tok c1Model sampler0 smax0
        { c1Req with model_id := "no-such-model" }).events.length = 6 := by
  with_unfolding_all decide

/-- C8 (amended): the only configuration check is the loaded-model flag:
when the model is not loaded the request fails immediately with a single
error record, zero token events and zero forward passes (fatal only for
that request — the function returns normally); the requested `model_id` is
ignored entirely, so two requests differing only in `model_id` stream
identically. -/
theorem c8_amended (tok : Tokenizer) (model : List Nat → Except String (List ℚ))
    (sampler : List (Option ℚ) → Nat) (smax : List ℚ → List ℚ)
    (req : GenerationRequest) (m₁ m₂ : String) :
    stream_generator false tok model sampler smax req
      = ⟨[.errorMsg "Model not loaded"], .normal, 0⟩ ∧
    stream_generator true tok model sampler smax { req with model_id := m₁ }
      = stream_generator true tok model sampler smax { req with model_id := m₂ } := by
  refine ⟨rfl, ?_⟩
  exact stream_congr tok model sampler smax _ _ rfl rfl (fun logits => rfl)

/-- C9 (counterexample): when the first forward pass raises, the stream ends
with no events at all: no error record distinguishable from completion and
no terminal event — the caller sees silence, refuting the claim's "receives
an explicit error record". -/
theorem c9_counterexample :
    (stream_generator true c1Tok (fun _ => .error "forward pass failed") sampler0 smax0
        c1Req).events = [] ∧
    (stream_generator true c1Tok (fun _ => .error "forward pass failed") sampler0 smax0
        c1Req).outcome = .raised "forward pass failed" ∧
    (stream_generator true c1Tok (fun _ => .error "forward pass failed") sampler0 smax0
        c1Req).events.countP isErrorRecord = 0 := by
  with_unfolding_all decide

/-- C9 (amended): if a step raises mid-loop, no further events are emitted
afterward, but no error record and no terminal event are delivered either:
every event the caller did receive is a plain token event with
`finished=false`, and the stream ends without a terminal signal. -/
theorem c9_amended (tok : Tokenizer) (model : List Nat → Except String (List ℚ))
    (sampler : List (Option ℚ) → Nat) (smax : List ℚ → List ℚ)
    (req : GenerationRequest) (e : String)
    (h : (stream_generator true tok model sampler smax req).outcome = .raised e) :
    (∀ ev ∈ (stream_generator true tok model sampler smax req).events,
      ∃ s, ev = .data s false) ∧
    (stream_generator true tok model sampler smax req).events.countP
      isFinishedRecord = 0 ∧
    (stream_generator true tok model sampler smax req).events.countP
      isErrorRecord = 0 := by
  have hL : (genLoop tok model sampler smax req req.max_new_tokens.toNat
      (tok.encode req.prompt)).outcome = .raised e := by
    rw [← stream_outcome_eq]; exact h
  have hev := stream_events_raised tok model sampler smax req e hL
  have hshape : ∀ ev ∈ (stream_generator true tok model sampler smax req).events,
      ∃ s, ev = .data s false := by
    rw [hev]
    exact genLoop_events_shape tok model sampler smax req _ _
  refine ⟨hshape, ?_, ?_⟩
  · rw [List.countP_eq_zero]
    intro ev hevm
    obtain ⟨s, rfl⟩ := hshape ev hevm
    simp [isFinishedRecord]
  · rw [List.countP_eq_zero]
    intro ev hevm
    obtain ⟨s, rfl⟩ := hshape ev hevm
    simp [isErrorRecord]

/-- C9 witness: the raising stub's stream contains no terminal record. -/
theorem c9_witness :
    (stream_generator true c1Tok (fun _ => .error "boom") sampler0 smax0
      c1Req).events.countP isFinishedRecord = 0 :=
  (c9_amended c1Tok (fun _ => .error "boom") sampler0 smax0 c1Req "boom"
    (by with_unfolding_all decide)).2.1

/-- With `top_k ≤ 0` the clamp gives `k ≤ 0`, the top-k selection is empty,
and indexing its last element raises. -/
lemma chooseToken_topk_nonpos (sampler : List (Option ℚ) → Nat) (smax : List ℚ → List ℚ)
    (req : GenerationRequest) (logits : List ℚ)
    (hs : req.strategy = "top_k") (hk : req.top_k ≤ 0) :
    chooseToken sampler smax req logits = .error topkIndexErrorMsg := by
  have htf : topKFilter (logits.map fun x => x / req.temperature) req.top_k
      = .error topkIndexErrorMsg := by
    simp [topKFilter, kthLargest, hk]
  simp [chooseToken, hs, htf]

/-- C10: the request schema admits `top_k = 0` (it only requires
`top_k ≥ 0`), yet with `strategy = "top_k"` the very first generation step
raises the empty-top-k IndexError: the endpoint accepts the request and
begins the stream, which then fails at runtime with zero token events. -/
theorem c10_topk_zero_runtime_failure (tok : Tokenizer)
    (model : List Nat → Except String (List ℚ))
    (sampler : List (Option ℚ) → Nat) (smax : List ℚ → List ℚ)
    (hmodel : ∀ ids, ∃ logits, model ids = .ok logits) :
    validateRequest c10Req = true ∧
    generate_stream_endpoint true tok model sampler smax c10Req
      = .ok ⟨[], .raised topkIndexErrorMsg, 1⟩ := by
  have hvalid : validateRequest c10Req = true := by with_unfolding_all decide
  refine ⟨hvalid, ?_⟩
  obtain ⟨logits, hm⟩ := hmodel (tok.encode c10Req.prompt)
  have hchoose := chooseToken_topk_nonpos sampler smax c10Req logits rfl (by decide)
  have hloop : genLoop tok model sampler smax c10Req c10Req.max_new_tokens.toNat
      (tok.encode c10Req.prompt) = ⟨[], .raised topkIndexErrorMsg, 1⟩ := by
    have hfuel : c10Req.max_new_tokens.toNat = 49 + 1 := rfl
    rw [hfuel]
    exact genLoop_succ_chooseRaise hm hchoose
  simp [generate_stream_endpoint, hvalid, stream_generator, hloop]

/-- C10 witness: a concrete always-succeeding model triggers the runtime
failure. -/
theorem c10_witness :
    generate_stream_endpoint true c1Tok (fun _ => .ok [(1 : ℚ), 2]) sampler0 smax0 c10Req
      = .ok ⟨[], .raised topkIndexErrorMsg, 1⟩ :=
  (c10_topk_zero_runtime_failure c1Tok (fun _ => .ok [(1 : ℚ), 2]) sampler0 smax0
    (fun _ => ⟨[(1 : ℚ), 2], rfl⟩)).2

end Portfolio
